import Mathlib

/-!
# Verification of the gokit / apicore error-normalization pipeline

Shallow embedding of the error classification and
contextual-metadata propagation pipeline:

* `metaerr` (src/unnamed/part_000): `WithMetadata`, `GetMetadata`,
  `GetMetadataMap`, `HasMetadata` over the `errMetadata` wrapper;
* `apierr` (src/apierr/apierr.go): `APIError`, `NewError`, `MapError`,
  `formatValidationErrors`;
* the legacy `gokit` classifier (src/unnamed/part_001): `MapError` with a
  direct type assertion and an `invalid UUID` substring rule;
* `middleware` (src/middleware/middlewares.go): the response-sink
  operation sequence of the `Public` adapter and the skip/severity
  decision of `RouterRequestLogger`;
* `response` (src/response/responses.go): the sink operation sequence
  of the `JSON` helper.

Go error values are modelled as the inductive `GoErr`: the leaf error kinds
the classifier can recognize (plus fully general text-carrying leaves), and
the two wrapper shapes the repository builds (`errMetadata` via
`WithMetadata`, and `fmt.Errorf` with a `%w` verb via `Wrapf`).
`errors.Unwrap`, `errors.Is` and `errors.As` are translated to structural
recursion over this chain, matching the standard library chain traversal
on these value shapes.  Go maps are modelled as association lists with
replace-or-append insertion, observed only through lookup (Go map iteration
order is not relied on by any modelled claim).  The `slog` diagnostic calls
and the storing of the original error into the request context are side
effects that do not influence any modelled return value and are not
modelled.
-/

namespace Apicore

/-- A Go `any` value as used in metadata pair lists (slog-compatible
key/value elements). Strings and ints suffice for the modelled behavior:
only string keys are ever consulted, and values are treated opaquely. -/
inductive GoVal where
  | str : String → GoVal
  | int : Int → GoVal
  deriving DecidableEq, Repr

/-- One violation reported by the external validation engine
(`validator.FieldError`): `field` is the leaf struct-field name as returned
by the `Field()` accessor of the engine, `tag` the rule tag from `Tag()`, and
`fieldNamespace` the dotted namespace used as the key of the batch
`Translate` output of the engine. -/
structure FieldError where
  field : String
  tag : String
  fieldNamespace : String
  deriving DecidableEq, Repr

/-- The polymorphic `Message any` payload of an `APIError`: a plain string,
a field-name to message mapping (the validation case), or some other
JSON-serializable scalar (modelled by an int). -/
inductive Msg where
  | str : String → Msg
  | fieldMap : List (String × String) → Msg
  | intVal : Int → Msg
  deriving DecidableEq, Repr

/-- `APIError` from src/apierr/apierr.go: HTTP status code, machine-readable
type tag, and polymorphic message.  (The Go field `Type` is a reserved word
in Lean and is rendered `errType`.) -/
structure APIError where
  statusCode : Nat
  errType : String
  message : Msg
  deriving DecidableEq, Repr

/-- The universe of Go error values the pipeline can encounter: the leaf
kinds recognized by the classifiers, a fully general opaque leaf carrying
its rendered text, and the two wrapper shapes built by the repository.
`metadata pairs inner` is `errMetadata` (src/unnamed/part_000);
`wrapMsg pre inner` is the `Wrapf` wrapper (`fmt.Errorf(format+": %w", ...)`). -/
inductive GoErr where
  | apiError : APIError → GoErr
  | jsonSyntaxError : String → GoErr
  | jsonUnmarshalTypeError : String → GoErr
  | eofErr : GoErr
  | unexpectedEOF : GoErr
  | canceledErr : GoErr
  | deadlineExceededErr : GoErr
  | validationErr : List FieldError → GoErr
  | plainErr : String → GoErr
  | metadata : List GoVal → GoErr → GoErr
  | wrapMsg : String → GoErr → GoErr
  deriving DecidableEq, Repr

/-- Association-list insertion with Go map assignment semantics:
replace the binding if the key is present, otherwise append. -/
def mapInsert {α : Type} : List (String × α) → String → α → List (String × α)
  | [], k, v => [(k, v)]
  | (k0, v0) :: rest, k, v =>
    if k0 = k then (k, v) :: rest else (k0, v0) :: mapInsert rest k v

/-- Association-list lookup (Go map read). -/
def mapLookup {α : Type} : List (String × α) → String → Option α
  | [], _ => none
  | (k0, v0) :: rest, k => if k0 = k then some v0 else mapLookup rest k

/-- Occurrence of `pat` as a contiguous sublist of `l`: check a prefix
match at every suffix position. -/
def charsContain (pat : List Char) : List Char → Bool
  | [] => pat.isPrefixOf []
  | c :: rest => pat.isPrefixOf (c :: rest) || charsContain pat rest

/-- `strings.Contains(s, pat)`: `pat` occurs as a substring of `s`,
modelled over the character sequences. -/
def strContains (s pat : String) : Bool := charsContain pat.data s.data

/-- `strings.HasPrefix(s, pat)`, modelled over the character sequences. -/
def strStartsWith (s pat : String) : Bool := pat.data.isPrefixOf s.data

/-- Canonical JSON rendering of a string-to-string map: `json.Marshal`
sorts map keys, modelled by insertion sort on the key. -/
def insertSorted (p : String × String) : List (String × String) → List (String × String)
  | [] => [p]
  | q :: rest => if p.1 ≤ q.1 then p :: q :: rest else q :: insertSorted p rest

/-- Sort an association list by key (the order `json.Marshal` emits). -/
def sortPairs (l : List (String × String)) : List (String × String) :=
  l.foldr insertSorted []

/-- JSON encoding of a field-map message, keys sorted as `json.Marshal`
does for Go maps. -/
def encodeFieldMap (m : List (String × String)) : String :=
  "\x7b" ++
    String.intercalate ","
      ((sortPairs m).map (fun p => "\"" ++ p.1 ++ "\":\"" ++ p.2 ++ "\"")) ++
  "\x7d"

/-- Textual rendering of a message payload, per `(*APIError).Error()`:
a string renders as itself, a map as its JSON encoding, anything else via
default stringification. -/
def Msg.render : Msg → String
  | .str s => s
  | .fieldMap m => encodeFieldMap m
  | .intVal n => toString n

/-- `(*APIError).Error()`. -/
def APIError.errorText (e : APIError) : String := e.message.render

/-- `Error()` on every modelled error value.  Sentinel texts follow the Go
standard library (`io.EOF`, `context.Canceled`, ...); the text of the
validation leaf models `ValidationErrors.Error()` (external collaborator
detail, not load-bearing); `errMetadata.Error()` delegates to the wrapped error, and the
`Wrapf` wrapper prepends its formatted message. -/
def GoErr.errorText : GoErr → String
  | .apiError a => a.errorText
  | .jsonSyntaxError s => s
  | .jsonUnmarshalTypeError s => s
  | .eofErr => "EOF"
  | .unexpectedEOF => "unexpected EOF"
  | .canceledErr => "context canceled"
  | .deadlineExceededErr => "context deadline exceeded"
  | .validationErr fes =>
      String.intercalate "\n"
        (fes.map (fun fe => "Key " ++ fe.fieldNamespace ++
          " failed on the " ++ fe.tag ++ " tag"))
  | .plainErr s => s
  | .metadata _ inner => inner.errorText
  | .wrapMsg pre inner => pre ++ ": " ++ inner.errorText

/-- `errors.Unwrap`: only the two wrapper shapes implement `Unwrap()`. -/
def GoErr.unwrap : GoErr → Option GoErr
  | .metadata _ inner => some inner
  | .wrapMsg _ inner => some inner
  | _ => none

/-- `errors.Is(err, target)` for sentinel targets: equality at each level of
the unwrap chain. -/
def errorsIs : GoErr → GoErr → Bool
  | .metadata ps inner, target =>
      GoErr.metadata ps inner == target || errorsIs inner target
  | .wrapMsg pre inner, target =>
      GoErr.wrapMsg pre inner == target || errorsIs inner target
  | e, target => e == target

/-- `errors.As(err, &apiErr)` for target type `*APIError`: the first
`APIError` on the unwrap chain, if any. -/
def asAPIError : GoErr → Option APIError
  | .apiError a => some a
  | .metadata _ inner => asAPIError inner
  | .wrapMsg _ inner => asAPIError inner
  | _ => none

/-- `errors.As(err, &syntaxErr)` for target type `*json.SyntaxError`. -/
def asJSONSyntaxErr : GoErr → Option String
  | .jsonSyntaxError s => some s
  | .metadata _ inner => asJSONSyntaxErr inner
  | .wrapMsg _ inner => asJSONSyntaxErr inner
  | _ => none

/-- `errors.As(err, &unmarshalErr)` for target type `*json.UnmarshalTypeError`. -/
def asJSONUnmarshalErr : GoErr → Option String
  | .jsonUnmarshalTypeError s => some s
  | .metadata _ inner => asJSONUnmarshalErr inner
  | .wrapMsg _ inner => asJSONUnmarshalErr inner
  | _ => none

/-- `errors.As(err, &validationErr)` for target type `validator.ValidationErrors`. -/
def asValidationErr : GoErr → Option (List FieldError)
  | .validationErr fes => some fes
  | .metadata _ inner => asValidationErr inner
  | .wrapMsg _ inner => asValidationErr inner
  | _ => none

/-- `WithMetadata` (src/unnamed/part_000): nil in, nil out; an odd-length
pair list loses its trailing element (`pairs = pairs[:len(pairs)-1]`,
i.e. `take (length - 1)`); the error is wrapped in an `errMetadata` node. -/
def WithMetadata (err : Option GoErr) (pairs : List GoVal) : Option GoErr :=
  match err with
  | none => none
  | some e =>
      let ps := if pairs.length % 2 ≠ 0 then pairs.take (pairs.length - 1) else pairs
      some (GoErr.metadata ps e)

/-- The accumulator loop of `GetMetadata`: walk the unwrap chain from the
outermost error inward; at each `errMetadata` node prepend the pairs of that node
to the accumulator (`allMetadata = append(metaErr.metadata, allMetadata...)`). -/
def getMetadataAux : GoErr → List GoVal → List GoVal
  | .metadata ps inner, acc => getMetadataAux inner (ps ++ acc)
  | .wrapMsg _ inner, acc => getMetadataAux inner acc
  | _, acc => acc

/-- `GetMetadata` (src/unnamed/part_000): the flattened pair sequence of the
whole chain; by the prepend-as-we-walk-outward loop the pairs of the deepest wrap
end up first. -/
def GetMetadata : Option GoErr → List GoVal
  | none => []
  | some e => getMetadataAux e []

/-- The index loop of `GetMetadataMap`: `for i := len(pairs)-2; i >= 0; i -= 2`,
inserting `pairs[i+1]` under `pairs[i]` whenever `pairs[i]` is a string.
`i` is the current index; the loop continues (at `i - 2`) exactly when
`i ≥ 2`, matching the Go loop condition after the decrement. -/
def metadataMapLoop (pairs : List GoVal) : Nat → List (String × GoVal) → List (String × GoVal)
  | i, result =>
    let result' :=
      match pairs.get? i with
      | some (GoVal.str k) =>
          match pairs.get? (i + 1) with
          | some v => mapInsert result k v
          | none => result
      | _ => result
    match i with
    | i' + 2 => metadataMapLoop pairs i' result'
    | _ => result'

/-- `GetMetadataMap` (src/unnamed/part_000): fold the flattened pair
sequence into a string-keyed map, iterating from the end of the sequence
toward its start. -/
def GetMetadataMap (err : Option GoErr) : List (String × GoVal) :=
  let pairs := GetMetadata err
  if pairs.length == 0 then []
  else metadataMapLoop pairs (pairs.length - 2) []

/-- `HasMetadata` (src/unnamed/part_000): some node of the unwrap chain is
an `errMetadata`. -/
def HasMetadata : GoErr → Bool
  | .metadata _ _ => true
  | .wrapMsg _ inner => HasMetadata inner
  | _ => false

/-- The process-wide translator (`ut.Translator` consumed through
`ValidationErrors.Translate`): maps one violation to its localized text.
Modelled as an explicit optional parameter threaded into the classifier,
per the design notes; `none` is the unconfigured default. -/
def Translator : Type := FieldError → String

/-- `NewError` (src/apierr/apierr.go).  The string type-switch in the Go body
re-assigns the message to itself and is an identity. -/
def NewError (code : Nat) (errtype : String) (message : Msg) : APIError :=
  ⟨code, errtype, message⟩

/-- The final segment of a dotted namespace
(`parts := strings.Split(fieldError, "."); parts[len(parts)-1]`).
`splitOn` never returns an empty list, so the default is unreachable. -/
def leafField (ns : String) : String := (ns.splitOn ".").getLastD ns

/-- `formatValidationErrors` (src/apierr/apierr.go).  With a translator:
batch-translate (keyed by the dotted namespace) and re-key each message
under the lower-cased leaf field name; Go iterates the translated map in
unspecified order, modelled here as the violation-list order.  Without a
translator: map the lower-cased `Field()` of each violation to its raw `Tag()`,
later entries overwriting earlier ones. -/
def formatValidationErrors (trans : Option Translator) (ves : List FieldError) :
    List (String × String) :=
  match trans with
  | some t =>
      (ves.map (fun fe => (fe.fieldNamespace, t fe))).foldl
        (fun m p => mapInsert m (leafField p.1).toLower p.2) []
  | none =>
      ves.foldl (fun m fe => mapInsert m fe.field.toLower fe.tag) []

/-- `MapError` (src/apierr/apierr.go): the classifier.  Rule order is the
the order in the source: pass-through for an error that unwraps to an `APIError`; JSON
syntax/type-mismatch; EOF / unexpected EOF; validation; cancellation;
deadline exceeded; the internal-error fallback.  Storing the original error
into the request context and the `slog` line of the fallback are side effects
with no bearing on the returned value and are not modelled. -/
def MapError (trans : Option Translator) : Option GoErr → Option APIError
  | none => none
  | some err =>
    match asAPIError err with
    | some apiErr => some apiErr
    | none =>
      if (asJSONSyntaxErr err).isSome || (asJSONUnmarshalErr err).isSome then
        some (NewError 400 "json" (Msg.str "invalid JSON format"))
      else if errorsIs err GoErr.eofErr || errorsIs err GoErr.unexpectedEOF then
        some (NewError 400 "json" (Msg.str "empty or incomplete JSON body"))
      else
        match asValidationErr err with
        | some ves =>
            some (NewError 422 "validation" (Msg.fieldMap (formatValidationErrors trans ves)))
        | none =>
          if errorsIs err GoErr.canceledErr then
            some (NewError 499 "canceled" (Msg.str "request cancelled"))
          else if errorsIs err GoErr.deadlineExceededErr then
            some (NewError 504 "canceled" (Msg.str "request timeout"))
          else
            some (NewError 500 "internal" (Msg.str "internal server error"))

/-- The Go type assertion `err.(*ApiError)` of the legacy classifier:
unlike `errors.As` it looks only at the outermost value and does not
unwrap. -/
def topAPIError : GoErr → Option APIError
  | .apiError a => some a
  | _ => none

/-- `MapError` of the legacy `gokit` variant (src/unnamed/part_001): a
direct type assertion instead of `errors.As`, then an extra rule mapping
any error whose rendered text contains `"invalid UUID"` to a 400
`"parameter"` error, then the JSON / EOF / cancellation / deadline rules
and the internal fallback (this variant has no validation rule). -/
def gokitMapError : Option GoErr → Option APIError
  | none => none
  | some err =>
    match topAPIError err with
    | some apiErr => some apiErr
    | none =>
      if strContains err.errorText "invalid UUID" then
        some (NewError 400 "parameter" (Msg.str "invalid parameter"))
      else if (asJSONSyntaxErr err).isSome || (asJSONUnmarshalErr err).isSome then
        some (NewError 400 "json" (Msg.str "invalid JSON format"))
      else if errorsIs err GoErr.eofErr || errorsIs err GoErr.unexpectedEOF then
        some (NewError 400 "json" (Msg.str "empty or incomplete JSON body"))
      else if errorsIs err GoErr.canceledErr then
        some (NewError 499 "canceled" (Msg.str "request cancelled"))
      else if errorsIs err GoErr.deadlineExceededErr then
        some (NewError 504 "canceled" (Msg.str "request timeout"))
      else
        some (NewError 500 "internal" (Msg.str "internal server error"))

/-- One operation performed on the HTTP response sink
(`http.ResponseWriter`): setting a header, writing the status code, or
writing a body payload. -/
inductive SinkOp where
  | setHeader : String → String → SinkOp
  | writeHeader : Nat → SinkOp
  | writeBody : String → SinkOp
  deriving DecidableEq, Repr

/-- Whether a sink operation sets the `Content-Type` header. -/
def SinkOp.isContentTypeSet : SinkOp → Bool
  | .setHeader n _ => n == "Content-Type"
  | _ => false

/-- JSON wire encoding of an `APIError`
(`json.NewEncoder(w).Encode(err)` over the struct tags
`status` / `type` / `msg`). -/
def encodeAPIError (a : APIError) : String :=
  "\x7b\"status\":" ++ toString a.statusCode ++
    ",\"type\":\"" ++ a.errType ++
    "\",\"msg\":" ++
      (match a.message with
       | Msg.str s => "\"" ++ s ++ "\""
       | Msg.fieldMap m => encodeFieldMap m
       | Msg.intVal n => toString n) ++
  "\x7d"

/-- The sink operations the `Public` adapter
(src/middleware/middlewares.go) performs when the wrapped handler returns
the error `e`: classify, write the classified status code, then encode the
`APIError` as the body.  The encoder is modelled as total (its failure
branch, `http.Error`, is unreachable for these values). -/
def publicErrorOps (trans : Option Translator) (e : GoErr) : List SinkOp :=
  match MapError trans (some e) with
  | some apiErr =>
      [SinkOp.writeHeader apiErr.statusCode,
       SinkOp.writeBody (encodeAPIError apiErr)]
  | none => []

/-- The sink operations of the `response.JSON` helper
(src/response/responses.go): set `Content-Type: application/json`, write
the status code, encode the body.  `body` stands for the JSON encoding of
the `data` argument. -/
def jsonResponseOps (statusCode : Nat) (body : String) : List SinkOp :=
  [SinkOp.setHeader "Content-Type" "application/json",
   SinkOp.writeHeader statusCode,
   SinkOp.writeBody body]

/-- Log record severity (`slog.Info` / `slog.Warn` / `slog.Error`). -/
inductive Severity where
  | info
  | warn
  | error
  deriving DecidableEq, Repr

/-- The request data `RouterRequestLogger` consults: HTTP method, URL path,
raw query string. -/
structure ReqInfo where
  method : String
  urlPath : String
  rawQuery : String
  deriving DecidableEq, Repr

/-- The logged path: the URL path with `"?" + RawQuery` appended when the
query string is nonempty. -/
def fullPath (r : ReqInfo) : String :=
  if r.rawQuery ≠ "" then r.urlPath ++ "?" ++ r.rawQuery else r.urlPath

/-- The emit/severity decision of `RouterRequestLogger`
(src/middleware/middlewares.go): skip paths outside the `/api` prefix and
`OPTIONS` requests; otherwise emit one record whose severity is error for
status ≥ 500, warning for status ≥ 400, informational below 400.  `status`
is the code captured by the response recorder (200 if never written). -/
def loggerRecord (r : ReqInfo) (status : Nat) : Option Severity :=
  if ¬ strStartsWith (fullPath r) "/api" then none
  else if r.method = "OPTIONS" then none
  else if status ≥ 500 then some Severity.error
  else if status ≥ 400 then some Severity.warn
  else some Severity.info

/-- No classification rule of `MapError` before the internal fallback
matches the error: it does not unwrap to an `APIError`, a JSON syntax or
type-mismatch error, an EOF condition, a validation failure, or a
cancellation / deadline signal. -/
def unmatched (e : GoErr) : Prop :=
  asAPIError e = none ∧ asJSONSyntaxErr e = none ∧ asJSONUnmarshalErr e = none ∧
  errorsIs e GoErr.eofErr = false ∧ errorsIs e GoErr.unexpectedEOF = false ∧
  asValidationErr e = none ∧ errorsIs e GoErr.canceledErr = false ∧
  errorsIs e GoErr.deadlineExceededErr = false

/-- Some classification rule of `MapError` consulted before the
deadline-exceeded rule matches the error. -/
def matchesBeforeDeadline (e : GoErr) : Prop :=
  (asAPIError e).isSome = true ∨ (asJSONSyntaxErr e).isSome = true ∨
  (asJSONUnmarshalErr e).isSome = true ∨ errorsIs e GoErr.eofErr = true ∨
  errorsIs e GoErr.unexpectedEOF = true ∨ (asValidationErr e).isSome = true ∨
  errorsIs e GoErr.canceledErr = true

instance (e : GoErr) : Decidable (unmatched e) := by
  unfold unmatched; infer_instance

instance (e : GoErr) : Decidable (matchesBeforeDeadline e) := by
  unfold matchesBeforeDeadline; infer_instance

theorem getMetadataAux_append (e : GoErr) (acc : List GoVal) :
    getMetadataAux e acc = getMetadataAux e [] ++ acc := by
  induction e generalizing acc
  case metadata ps inner ih =>
    show getMetadataAux inner (ps ++ acc) = getMetadataAux inner (ps ++ []) ++ acc
    rw [ih (ps ++ acc), ih (ps ++ [])]
    simp
  case wrapMsg pre inner ih =>
    show getMetadataAux inner acc = getMetadataAux inner [] ++ acc
    exact ih acc
  all_goals simp [getMetadataAux]

theorem errorsIs_metadata_eof (ps : List GoVal) (e : GoErr) :
    errorsIs (GoErr.metadata ps e) GoErr.eofErr = errorsIs e GoErr.eofErr := by
  simp [errorsIs]

theorem errorsIs_metadata_ueof (ps : List GoVal) (e : GoErr) :
    errorsIs (GoErr.metadata ps e) GoErr.unexpectedEOF = errorsIs e GoErr.unexpectedEOF := by
  simp [errorsIs]

theorem errorsIs_metadata_canceled (ps : List GoVal) (e : GoErr) :
    errorsIs (GoErr.metadata ps e) GoErr.canceledErr = errorsIs e GoErr.canceledErr := by
  simp [errorsIs]

theorem errorsIs_metadata_deadline (ps : List GoVal) (e : GoErr) :
    errorsIs (GoErr.metadata ps e) GoErr.deadlineExceededErr
      = errorsIs e GoErr.deadlineExceededErr := by
  simp [errorsIs]

theorem errorsIs_wrapMsg_eof (pre : String) (e : GoErr) :
    errorsIs (GoErr.wrapMsg pre e) GoErr.eofErr = errorsIs e GoErr.eofErr := by
  simp [errorsIs]

theorem errorsIs_wrapMsg_ueof (pre : String) (e : GoErr) :
    errorsIs (GoErr.wrapMsg pre e) GoErr.unexpectedEOF = errorsIs e GoErr.unexpectedEOF := by
  simp [errorsIs]

theorem errorsIs_wrapMsg_canceled (pre : String) (e : GoErr) :
    errorsIs (GoErr.wrapMsg pre e) GoErr.canceledErr = errorsIs e GoErr.canceledErr := by
  simp [errorsIs]

theorem errorsIs_wrapMsg_deadline (pre : String) (e : GoErr) :
    errorsIs (GoErr.wrapMsg pre e) GoErr.deadlineExceededErr
      = errorsIs e GoErr.deadlineExceededErr := by
  simp [errorsIs]

theorem mapError_metadata_transparent (trans : Option Translator) (ps : List GoVal)
    (e : GoErr) :
    MapError trans (some (GoErr.metadata ps e)) = MapError trans (some e) := by
  simp only [MapError]
  rw [show asAPIError (GoErr.metadata ps e) = asAPIError e from rfl,
    show asJSONSyntaxErr (GoErr.metadata ps e) = asJSONSyntaxErr e from rfl,
    show asJSONUnmarshalErr (GoErr.metadata ps e) = asJSONUnmarshalErr e from rfl,
    show asValidationErr (GoErr.metadata ps e) = asValidationErr e from rfl,
    errorsIs_metadata_eof, errorsIs_metadata_ueof, errorsIs_metadata_canceled,
    errorsIs_metadata_deadline]

theorem mapError_wrapMsg_transparent (trans : Option Translator) (pre : String)
    (e : GoErr) :
    MapError trans (some (GoErr.wrapMsg pre e)) = MapError trans (some e) := by
  simp only [MapError]
  rw [show asAPIError (GoErr.wrapMsg pre e) = asAPIError e from rfl,
    show asJSONSyntaxErr (GoErr.wrapMsg pre e) = asJSONSyntaxErr e from rfl,
    show asJSONUnmarshalErr (GoErr.wrapMsg pre e) = asJSONUnmarshalErr e from rfl,
    show asValidationErr (GoErr.wrapMsg pre e) = asValidationErr e from rfl,
    errorsIs_wrapMsg_eof, errorsIs_wrapMsg_ueof, errorsIs_wrapMsg_canceled,
    errorsIs_wrapMsg_deadline]

theorem mapError_isSome (trans : Option Translator) (e : GoErr) :
    (MapError trans (some e)).isSome = true := by
  simp only [MapError]
  repeat' split
  all_goals simp

/-- Claim C8: `GetMetadata` walks the full unwrap chain and returns the
flattened pair sequence deepest-first: wrapping an error in a further
decoration appends the new pairs after all pairs of the deeper chain, and
a plain message wrapper contributes nothing. -/
theorem getMetadata_deepest_first (ps : List GoVal) (pre : String) (e : GoErr) :
    GetMetadata (some (GoErr.metadata ps e)) = GetMetadata (some e) ++ ps ∧
    GetMetadata (some (GoErr.wrapMsg pre e)) = GetMetadata (some e) := by
  constructor
  · show getMetadataAux e (ps ++ []) = getMetadataAux e [] ++ ps
    rw [getMetadataAux_append e (ps ++ [])]
    simp
  · rfl

/-- Claim C9: for a non-nil error and an odd-length pair list,
`WithMetadata` drops the trailing unmatched element: the stored metadata is
exactly the first `length - 1` elements of the pair list. -/
theorem withMetadata_odd_truncates (e : GoErr) (pairs : List GoVal)
    (h : pairs.length % 2 = 1) :
    WithMetadata (some e) pairs
      = some (GoErr.metadata (pairs.take (pairs.length - 1)) e) := by
  simp [WithMetadata, h]

theorem withMetadata_odd_truncates_witness :
    WithMetadata (some (GoErr.plainErr "boom")) [GoVal.str "a", GoVal.str "1", GoVal.str "b"]
      = some (GoErr.metadata [GoVal.str "a", GoVal.str "1"] (GoErr.plainErr "boom")) := by
  have h := withMetadata_odd_truncates (GoErr.plainErr "boom")
    [GoVal.str "a", GoVal.str "1", GoVal.str "b"] (by decide)
  simpa using h

/-- Claim C2: metadata decoration is classification-transparent — for every
error, translator configuration and pair list, classifying the decorated
error returns the very same `APIError` (hence identical status, type and
message rendering) as classifying the error directly; this includes the
case of an already-classified `APIError`, which `errors.As` still finds
through the decoration. -/
theorem mapError_decoration_transparent (trans : Option Translator) (e : GoErr)
    (pairs : List GoVal) :
    MapError trans (WithMetadata (some e) pairs) = MapError trans (some e) :=
  mapError_metadata_transparent trans _ e

/-- Claim C4: the classifier is total — nil maps to nil, every non-nil
error maps to some `APIError`, and when no recognition rule matches the
result is status 500, type `"internal"`, message exactly
`"internal server error"` (a constant, so the raw error text cannot appear
in the client-facing message). -/
theorem mapError_total_fallback (trans : Option Translator) :
    MapError trans none = none ∧
    (∀ e : GoErr, (MapError trans (some e)).isSome = true) ∧
    (∀ e : GoErr, unmatched e →
      MapError trans (some e)
        = some (NewError 500 "internal" (Msg.str "internal server error"))) := by
  refine ⟨rfl, fun e => mapError_isSome trans e, fun e h => ?_⟩
  obtain ⟨h1, h2, h3, h4, h5, h6, h7, h8⟩ := h
  simp [MapError, h1, h2, h3, h4, h5, h6, h7, h8]

theorem mapError_total_fallback_witness :
    MapError none (some (GoErr.plainErr "boom"))
      = some (NewError 500 "internal" (Msg.str "internal server error")) :=
  (mapError_total_fallback none).2.2 (GoErr.plainErr "boom") (by decide)

theorem mapError_canceled_aux (trans : Option Translator) :
    ∀ e : GoErr, errorsIs e GoErr.canceledErr = true →
      MapError trans (some e)
        = some (NewError 499 "canceled" (Msg.str "request cancelled")) := by
  intro e
  induction e
  case canceledErr => intro _; rfl
  case metadata ps inner ih =>
    intro h
    rw [errorsIs_metadata_canceled] at h
    rw [mapError_metadata_transparent]
    exact ih h
  case wrapMsg pre inner ih =>
    intro h
    rw [errorsIs_wrapMsg_canceled] at h
    rw [mapError_wrapMsg_transparent]
    exact ih h
  all_goals (intro h; simp [errorsIs] at h)

/-- Claim C5: an error that unwraps to `context.Canceled` classifies to
status 499, type `"canceled"`, message `"request cancelled"`; an error
that unwraps to `context.DeadlineExceeded` and matches no earlier rule
classifies to status 504, type `"canceled"`, message `"request timeout"`. -/
theorem mapError_cancellation_rules (trans : Option Translator) (e : GoErr) :
    (errorsIs e GoErr.canceledErr = true →
      MapError trans (some e)
        = some (NewError 499 "canceled" (Msg.str "request cancelled"))) ∧
    (errorsIs e GoErr.deadlineExceededErr = true → ¬ matchesBeforeDeadline e →
      MapError trans (some e)
        = some (NewError 504 "canceled" (Msg.str "request timeout"))) := by
  refine ⟨mapError_canceled_aux trans e, fun hd hnm => ?_⟩
  simp only [matchesBeforeDeadline, not_or] at hnm
  obtain ⟨n1, n2, n3, n4, n5, n6, n7⟩ := hnm
  simp only [Bool.not_eq_true] at n1 n2 n3 n4 n5 n6 n7
  have hA : asAPIError e = none := by
    cases hx : asAPIError e
    · rfl
    · rw [hx] at n1; simp at n1
  have hV : asValidationErr e = none := by
    cases hx : asValidationErr e
    · rfl
    · rw [hx] at n6; simp at n6
  simp [MapError, hA, n2, n3, n4, n5, hV, n7, hd]

theorem mapError_cancellation_rules_witness :
    MapError none (some GoErr.canceledErr)
        = some (NewError 499 "canceled" (Msg.str "request cancelled")) ∧
    MapError none (some GoErr.deadlineExceededErr)
        = some (NewError 504 "canceled" (Msg.str "request timeout")) :=
  ⟨(mapError_cancellation_rules none GoErr.canceledErr).1 (by decide),
   (mapError_cancellation_rules none GoErr.deadlineExceededErr).2 (by decide) (by decide)⟩

/-- Counterexample to claim C1: on the doubly-wrapped error where the inner
wrap sets `"x"` to `"inner"` and the outer wrap sets `"x"` to `"outer"`,
`GetMetadataMap` does NOT bind `"x"` to the value set by the outer wrap. -/
theorem metadataMap_outer_priority_cex :
    mapLookup (GetMetadataMap (some (GoErr.metadata [GoVal.str "x", GoVal.str "outer"]
        (GoErr.metadata [GoVal.str "x", GoVal.str "inner"] (GoErr.plainErr "boom"))))) "x"
      ≠ some (GoVal.str "outer") := by decide

/-- Claim C1 as amended: on a doubly-wrapped error whose inner and outer
wraps both set the same string key, `GetMetadataMap` binds that key to the
value of the INNER (deeper) wrap — the backwards index loop makes the first pair
of the deepest-first flattened sequence win on collision. -/
theorem metadataMap_inner_wins (k : String) (vi vo : GoVal) (base : GoErr)
    (h : GetMetadata (some base) = []) :
    mapLookup (GetMetadataMap (some (GoErr.metadata [GoVal.str k, vo]
        (GoErr.metadata [GoVal.str k, vi] base)))) k = some vi := by
  have hbase : getMetadataAux base [] = [] := h
  have hflat : GetMetadata (some (GoErr.metadata [GoVal.str k, vo]
      (GoErr.metadata [GoVal.str k, vi] base)))
      = [GoVal.str k, vi, GoVal.str k, vo] := by
    show getMetadataAux base ([GoVal.str k, vi] ++ ([GoVal.str k, vo] ++ [])) = _
    rw [getMetadataAux_append, hbase]
    rfl
  simp only [GetMetadataMap]
  rw [hflat]
  simp [metadataMapLoop, mapInsert, mapLookup]

theorem metadataMap_inner_wins_witness :
    mapLookup (GetMetadataMap (some (GoErr.metadata [GoVal.str "x", GoVal.str "outer"]
        (GoErr.metadata [GoVal.str "x", GoVal.str "inner"] (GoErr.plainErr "boom"))))) "x"
      = some (GoVal.str "inner") :=
  metadataMap_inner_wins "x" (GoVal.str "inner") (GoVal.str "outer")
    (GoErr.plainErr "boom") rfl

/-- Counterexample to claim C3: when the wrapped handler fails, the
`Public` adapter performs no `Content-Type` header write at all — it only
writes the classified status code and the encoded body. -/
theorem public_content_type_cex :
    (publicErrorOps none (GoErr.plainErr "boom")).any SinkOp.isContentTypeSet = false ∧
    (publicErrorOps none (GoErr.plainErr "boom")).length = 2 := by decide

/-- Claim C3 as amended: on handler failure the `Public` adapter writes
only the classified status code and the serialized body, never a
`Content-Type` header; the `Content-Type: application/json` write happens
only in the separate `response.JSON` helper, as its first sink operation. -/
theorem public_writes_error_without_content_type (trans : Option Translator) (e : GoErr)
    (statusCode : Nat) (body : String) :
    (publicErrorOps trans e).any SinkOp.isContentTypeSet = false ∧
    (publicErrorOps trans e).length = 2 ∧
    (jsonResponseOps statusCode body).head?
      = some (SinkOp.setHeader "Content-Type" "application/json") := by
  have hs := mapError_isSome trans e
  obtain ⟨a, ha⟩ := Option.isSome_iff_exists.mp hs
  refine ⟨?_, ?_, rfl⟩ <;> simp [publicErrorOps, ha, SinkOp.isContentTypeSet]

/-- Claim C10: in the legacy `gokit` classifier, a non-nil error that is
not (at top level) an `APIError` and whose rendered text contains
`"invalid UUID"` classifies to status 400, type `"parameter"`, message
`"invalid parameter"` — this rule fires before the JSON, EOF and
cancellation rules, as the generality of the theorem over all such errors
(including JSON-syntax and cancellation errors with that text) shows. -/
theorem gokitMapError_invalid_uuid (e : GoErr)
    (h1 : topAPIError e = none)
    (h2 : strContains e.errorText "invalid UUID" = true) :
    gokitMapError (some e)
      = some (NewError 400 "parameter" (Msg.str "invalid parameter")) := by
  simp [gokitMapError, h1, h2]

theorem gokitMapError_invalid_uuid_witness :
    gokitMapError (some (GoErr.jsonSyntaxError "invalid UUID length 5"))
      = some (NewError 400 "parameter" (Msg.str "invalid parameter")) :=
  gokitMapError_invalid_uuid (GoErr.jsonSyntaxError "invalid UUID length 5") rfl (by decide)

/-- Claim C7: whenever `RouterRequestLogger` emits a record, its severity
is informational for status < 400, warning for 400 ≤ status < 500
(including 499), and error for status ≥ 500. -/
theorem routerLogger_severity (r : ReqInfo) (status : Nat) (sev : Severity)
    (h : loggerRecord r status = some sev) :
    (status < 400 → sev = Severity.info) ∧
    (400 ≤ status → status < 500 → sev = Severity.warn) ∧
    (500 ≤ status → sev = Severity.error) := by
  unfold loggerRecord at h
  split_ifs at h with h1 h2 h3 h4
  all_goals injection h with h
  all_goals subst h
  all_goals refine ⟨fun hb1 => ?_, fun hb2 hb3 => ?_, fun hb4 => ?_⟩
  all_goals first | rfl | (exfalso; omega)

theorem routerLogger_severity_witness :
    (404 < 400 → Severity.warn = Severity.info) ∧
    (400 ≤ 404 → 404 < 500 → Severity.warn = Severity.warn) ∧
    (500 ≤ 404 → Severity.warn = Severity.error) :=
  routerLogger_severity ⟨"GET", "/api/x", ""⟩ 404 Severity.warn (by decide)

theorem mapLookup_mapInsert {α : Type} (m : List (String × α)) (k k' : String) (v : α) :
    mapLookup (mapInsert m k v) k' = if k = k' then some v else mapLookup m k' := by
  induction m with
  | nil => simp [mapInsert, mapLookup]
  | cons p rest ih =>
    obtain ⟨k0, v0⟩ := p
    by_cases h0 : k0 = k
    · subst h0
      by_cases hk : k0 = k' <;> simp [mapInsert, mapLookup, hk]
    · simp only [mapInsert, if_neg h0, mapLookup, ih]
      by_cases hk0 : k0 = k'
      · subst hk0
        simp [Ne.symm h0]
      · simp [hk0]

theorem lookup_foldl_insert (ves : List FieldError) (m : List (String × String)) (k : String) :
    mapLookup (ves.foldl (fun m fe => mapInsert m fe.field.toLower fe.tag) m) k =
      match ves.reverse.find? (fun fe => fe.field.toLower == k) with
      | some fe => some fe.tag
      | none => mapLookup m k := by
  induction ves generalizing m with
  | nil => simp
  | cons fe rest ih =>
    rw [List.foldl_cons, ih, List.reverse_cons, List.find?_append]
    cases hf : rest.reverse.find? (fun fe => fe.field.toLower == k) with
    | some x => simp [Option.or]
    | none =>
      simp only [Option.or]
      rw [mapLookup_mapInsert]
      by_cases hp : fe.field.toLower = k
      · simp [List.find?, hp]
      · have hb : (fe.field.toLower == k) = false := beq_eq_false_iff_ne.mpr hp
        simp [List.find?, hb]
        exact fun hx => absurd hx hp

/-- Claim C6: with no translator configured, the validation formatter maps
the lower-cased leaf name of each offending field to the raw rule tag of the
violation, and on duplicate field names the last-seen violation wins: the
lookup of any key equals the tag of the last violation whose lower-cased
field name is that key. -/
theorem formatValidation_no_translator (ves : List FieldError) (k : String) :
    mapLookup (formatValidationErrors none ves) k =
      (ves.reverse.find? (fun fe => fe.field.toLower == k)).map FieldError.tag := by
  show mapLookup (ves.foldl (fun m fe => mapInsert m fe.field.toLower fe.tag) []) k = _
  rw [lookup_foldl_insert]
  cases hf : ves.reverse.find? (fun fe => fe.field.toLower == k) with
  | some x => simp
  | none => simp [mapLookup]

end Apicore
